import Mathlib

/-!
Verification of the network-observation and settle-detection core of the
repository: the `HttpCapture` correlator
(src/utils/network/http-capture/httpCaptureUtil) and the `FormFillUtil`
retry-verify engine (src/utils/formFillUtil.ts).

The TypeScript classes are shallowly embedded as pure state-passing
functions.  The browser driver is modelled by explicit event lists delivered
at the cooperative suspension points (sleeps and awaited calls), matching the
single-threaded event-loop semantics of the host.  Fallible driver calls
(element reads, custom actions) are oracles of type `Except String _`.
Polling loops of the source are wall-clock bounded; they are embedded with a
fuel argument that over-approximates the iteration bound, so the
fuel-exhaustion branches are unreachable for the fuel the API entry points
supply (proved where a theorem depends on it).
-/

/-! ## JavaScript string and regex primitives -/

/-- JS `url.includes(sub)`: substring containment. -/
def jsIncludes (url sub : String) : Bool :=
  decide (sub.toList <:+: url.toList)

/-- A JS `RegExp` object: its `g` (global) flag and its pure matching engine.
`find s i` returns the end position of the first match at or after position
`i`, or `none`.  The mutable `lastIndex` of the JS object is threaded
explicitly by the caller. -/
structure JsRegExp where
  globalFlag : Bool
  find : String → Nat → Option Nat

/-- ECMA-262 `RegExp.prototype.test` (via `RegExpBuiltinExec`): a global
regex searches from `lastIndex`, sets it to the match end on success and
resets it to 0 on failure; a non-global regex searches from 0 and leaves
`lastIndex` untouched.  Returns (result, new lastIndex). -/
def JsRegExp.test (re : JsRegExp) (li : Nat) (s : String) : Bool × Nat :=
  if re.globalFlag then
    match re.find s li with
    | some e => (true, e)
    | none => (false, 0)
  else
    ((re.find s 0).isSome, li)

/-- The matching engine of a regex that is a literal string: first
occurrence of `lit` at or after position `i`, returning its end position. -/
def literalFind (lit : String) (s : String) (i : Nat) : Option Nat :=
  (((List.range (s.length + 1)).filter
      (fun j => decide (i ≤ j) && lit.toList.isPrefixOf (s.toList.drop j))).head?).map
    (fun j => j + lit.length)

/-- `urlPattern: string | RegExp` of the `HttpCapture` constructor. -/
inductive UrlPattern where
  | substring (s : String)
  | regex (re : JsRegExp)

/-- A pattern whose match is stateless: a substring, or a regex without the
global flag (whose `test` ignores and preserves `lastIndex`). -/
def UrlPattern.stateless : UrlPattern → Bool
  | .substring _ => true
  | .regex re => !re.globalFlag

/-- `HttpCapture.matchesPattern` (httpCaptureUtil lines 171-177):
`typeof this.urlPattern === 'string' ? url.includes(p) : p.test(url)`.
The second component is the pattern state (the regex `lastIndex`) after the
call. -/
def matchesPattern : UrlPattern → Nat → String → Bool × Nat
  | .substring sub, li, url => (jsIncludes url sub, li)
  | .regex re, li, url => re.test li url

/-! ## Captured data (httpCaptureUtil lines 6-45)

Request/response bodies are kept as the raw text the driver supplies; the
best-effort `JSON.parse` refinement of `captureRequest`/`captureResponse`
and the query-parameter split only transform fields inside one pair and do
not change which responses are captured, their order or their count, which
is what the theorems below are about. -/

structure JsRequest where
  url : String
  method : String
  headers : List (String × String)
  postDataRaw : Option String
deriving DecidableEq

/-- A driver response event; `request` is the originating request object
returned by `response.request()`. -/
structure JsResponse where
  url : String
  status : Nat
  statusText : String
  headers : List (String × String)
  bodyText : Option String
  request : JsRequest
deriving DecidableEq

structure CapturedRequest where
  url : String
  method : String
  headers : List (String × String)
  postData : Option String
deriving DecidableEq

structure CapturedResponse where
  status : Nat
  statusText : String
  headers : List (String × String)
  body : Option String
deriving DecidableEq

structure CapturedHttpData where
  request : CapturedRequest
  response : CapturedResponse
deriving DecidableEq

/-- `captureRequest` (lines 182-214). -/
def captureRequest (r : JsRequest) : CapturedRequest :=
  { url := r.url, method := r.method, headers := r.headers, postData := r.postDataRaw }

/-- `captureResponse` (lines 219-251): a failed body read (`bodyText = none`)
is recorded as null, not raised. -/
def captureResponse (r : JsResponse) : CapturedResponse :=
  { status := r.status, statusText := r.statusText, headers := r.headers, body := r.bodyText }

/-- The pair pushed by the response handler (lines 92-100): the request is
read from the response event itself. -/
def mkCapturedPair (r : JsResponse) : CapturedHttpData :=
  { request := captureRequest r.request, response := captureResponse r }

/-! ## The HttpCapture correlator state machine -/

/-- The mutable fields of an `HttpCapture` instance.  `lastIndex` is the
`lastIndex` of the stored pattern when it is a regex (0 otherwise);
`requestHandlerOn`/`responseHandlerOn` record whether the two listeners are
registered on the driver. -/
structure HttpCaptureState where
  urlPattern : UrlPattern
  lastIndex : Nat
  capturedData : List CapturedHttpData
  requestHandlerOn : Bool
  responseHandlerOn : Bool
  isCapturing : Bool

namespace HttpCapture

/-- The constructor (lines 58-61). -/
def new (p : UrlPattern) : HttpCaptureState :=
  { urlPattern := p, lastIndex := 0, capturedData := [],
    requestHandlerOn := false, responseHandlerOn := false, isCapturing := false }

/-- `startCapture` (lines 66-106): no-op while capturing; otherwise clears
the buffer and registers both listeners. -/
def startCapture (st : HttpCaptureState) : HttpCaptureState :=
  if st.isCapturing then st
  else
    { st with
      isCapturing := true
      capturedData := []
      requestHandlerOn := true
      responseHandlerOn := true }

/-- `stopCapture` (lines 111-127): no-op while not capturing; otherwise
unregisters each listener that is registered. -/
def stopCapture (st : HttpCaptureState) : HttpCaptureState :=
  if !st.isCapturing then st
  else
    let st1 := { st with isCapturing := false }
    let st2 :=
      if st1.requestHandlerOn then { st1 with requestHandlerOn := false } else st1
    if st2.responseHandlerOn then { st2 with responseHandlerOn := false } else st2

/-- `getAllCapturedData` (lines 157-159) returns a copy of the buffer. -/
def getAllCapturedData (st : HttpCaptureState) : List CapturedHttpData :=
  st.capturedData

/-- `clear` (lines 164-166). -/
def clear (st : HttpCaptureState) : HttpCaptureState :=
  { st with capturedData := [] }

/-- A driver page event observed by the registered listeners. -/
inductive PageEvent where
  | request (r : JsRequest)
  | response (r : JsResponse)

/-- The request listener (lines 78-85): it evaluates the pattern (advancing
a global regex's `lastIndex`) and stores the request in `requestMap`; the
map is written but never read by the source, so it is not part of the
state. -/
def onRequest (st : HttpCaptureState) (r : JsRequest) : HttpCaptureState :=
  if st.requestHandlerOn then
    { st with lastIndex := (matchesPattern st.urlPattern st.lastIndex r.url).2 }
  else st

/-- The response listener (lines 88-102): on a match, append the pair built
from the response event. -/
def onResponse (st : HttpCaptureState) (r : JsResponse) : HttpCaptureState :=
  if st.responseHandlerOn then
    let m := matchesPattern st.urlPattern st.lastIndex r.url
    if m.1 then
      { st with lastIndex := m.2, capturedData := st.capturedData ++ [mkCapturedPair r] }
    else
      { st with lastIndex := m.2 }
  else st

def deliver (st : HttpCaptureState) : PageEvent → HttpCaptureState
  | .request r => onRequest st r
  | .response r => onResponse st r

/-- Deliver a batch of events in arrival order. -/
def deliverAll (st : HttpCaptureState) (evs : List PageEvent) : HttpCaptureState :=
  evs.foldl deliver st

/-- The pairs a capturing correlator appends for an event list: responses on
which the (stateful) pattern match returns true, in arrival order. -/
def matchedPairs (p : UrlPattern) : Nat → List PageEvent → List CapturedHttpData
  | _, [] => []
  | li, .request r :: rest => matchedPairs p (matchesPattern p li r.url).2 rest
  | li, .response r :: rest =>
    let m := matchesPattern p li r.url
    if m.1 then mkCapturedPair r :: matchedPairs p m.2 rest
    else matchedPairs p m.2 rest

/-- The timeout error of `waitForNextCapture` (line 151). -/
def timeoutMessage (timeout : Nat) : String :=
  s!"等待请求超时 ({timeout}ms), 未捕获到匹配的请求"

/-- The polling loop of `waitForNextCapture` (lines 144-149): while the
elapsed wall-clock time is below `timeout`, return the most recent pair if
the buffer is non-empty, else sleep 100 ms (during which the scheduled
events `sched poll` are delivered) and poll again; on expiry throw the
timeout error.  `fuel` bounds the recursion; one unit is consumed per 100 ms
sleep, so any fuel above `timeout / 100` is never exhausted (the fuel-out
branch repeats the expiry throw).  Returns (outcome, final state, elapsed
time at return). -/
def waitLoop (timeout : Nat) (sched : Nat → List PageEvent) :
    Nat → Nat → Nat → HttpCaptureState →
    Except String CapturedHttpData × HttpCaptureState × Nat
  | fuel, elapsed, poll, st =>
    if elapsed < timeout then
      match st.capturedData.getLast? with
      | some p => (.ok p, st, elapsed)
      | none =>
        match fuel with
        | 0 => (.error (timeoutMessage timeout), st, elapsed)
        | fuel' + 1 =>
          waitLoop timeout sched fuel' (elapsed + 100) (poll + 1)
            (deliverAll st (sched poll))
    else
      (.error (timeoutMessage timeout), st, elapsed)

/-- `waitForNextCapture` (lines 135-152): if the buffer already holds data,
return the most recently appended pair at once (elapsed 0, no sleep);
otherwise poll.  The supplied fuel `timeout` exceeds `timeout / 100`
whenever the loop can run at all. -/
def waitForNextCapture (timeout : Nat) (sched : Nat → List PageEvent)
    (st : HttpCaptureState) :
    Except String CapturedHttpData × HttpCaptureState × Nat :=
  match st.capturedData.getLast? with
  | some p => (.ok p, st, 0)
  | none => waitLoop timeout sched timeout 0 0 st

/-- The events a schedule has delivered during the first `k` polling
sleeps, in delivery order. -/
def schedFlat (sched : Nat → List PageEvent) (k : Nat) : List PageEvent :=
  ((List.range k).map sched).flatten

end HttpCapture

/-! ## The FormFillUtil retry-verify engine (src/src/utils/formFillUtil.ts)

The generic value `T` of `fillWithRetry` is modelled by `JsVal`: a JS string,
or any non-string value carrying its `String(value)` rendering.  The driver
calls of one attempt are oracles in an `AttemptEnv`; `eventsAt n` is the
batch of request-lifecycle events the page delivers during the attempt's
`n`-th suspension point (awaited call or sleep). -/

namespace FormFillUtil

inductive JsVal where
  | str (s : String)
  | other (display : String)
deriving DecidableEq

def JsVal.isStr : JsVal → Bool
  | .str _ => true
  | .other _ => false

/-- JS `String(value)`. -/
def JsVal.jsString : JsVal → String
  | .str s => s
  | .other d => d

/-- The driver's request lifecycle events counted by the attempt-scoped
tracker (lines 162-170). -/
inductive ReqEvent where
  | started
  | finished
  | failed
deriving DecidableEq

/-- `trackRequest` increments on `request`; `trackFinish` decrements on
`requestfinished` and on `requestfailed` — unconditionally, also for
requests that started before the listeners were registered. -/
def applyEvent : Int → ReqEvent → Int
  | c, .started => c + 1
  | c, .finished => c - 1
  | c, .failed => c - 1

/-- Oracle results of the driver calls one attempt can make, plus the event
schedule of the page during that attempt. -/
structure AttemptEnv where
  clearRes : Except String Unit := .ok ()
  fillRes : Except String Unit := .ok ()
  verifyCustom : Except String Bool := .ok true
  verifyInputVal : Except String String := .ok ""
  disabled : Bool := false
  successInputVal : Except String String := .ok ""
  failInputVal : Except String String := .ok ""
  eventsAt : Nat → List ReqEvent := fun _ => []

/-- `FillOptions` (lines 6-72): every scalar option may be absent; for the
two callback options only their presence matters here (their behaviour is
the oracle's). -/
structure FillOptions where
  maxRetries : Option Nat := none
  retryDelay : Option Nat := none
  waitAfterBlur : Option Nat := none
  waitBeforeVerify : Option Nat := none
  waitForRequests : Option Bool := none
  requestTimeout : Option Nat := none
  clearOnRetry : Option Bool := none
  hasFillAction : Bool := false
  hasVerifyAction : Bool := false
  debug : Option Bool := none
deriving DecidableEq

/-- The spread merge `{ ...globalOptions, ...field.options }` of
`fillMultiple` (line 354): a field option wins when present. -/
def mergeOptions (g f : FillOptions) : FillOptions :=
  { maxRetries := f.maxRetries <|> g.maxRetries
    retryDelay := f.retryDelay <|> g.retryDelay
    waitAfterBlur := f.waitAfterBlur <|> g.waitAfterBlur
    waitBeforeVerify := f.waitBeforeVerify <|> g.waitBeforeVerify
    waitForRequests := f.waitForRequests <|> g.waitForRequests
    requestTimeout := f.requestTimeout <|> g.requestTimeout
    clearOnRetry := f.clearOnRetry <|> g.clearOnRetry
    hasFillAction := f.hasFillAction || g.hasFillAction
    hasVerifyAction := f.hasVerifyAction || g.hasVerifyAction
    debug := f.debug <|> g.debug }

/-- The merged `config` of `fillWithRetry` (lines 133-144) with the
documented defaults. -/
structure Config where
  maxRetries : Nat
  retryDelay : Nat
  waitAfterBlur : Nat
  waitBeforeVerify : Nat
  waitForRequests : Bool
  requestTimeout : Nat
  clearOnRetry : Bool
  hasFillAction : Bool
  hasVerifyAction : Bool
  debug : Bool
deriving DecidableEq

def resolveConfig (o : FillOptions) : Config :=
  { maxRetries := o.maxRetries.getD 3
    retryDelay := o.retryDelay.getD 500
    waitAfterBlur := o.waitAfterBlur.getD 300
    waitBeforeVerify := o.waitBeforeVerify.getD 200
    waitForRequests := o.waitForRequests.getD true
    requestTimeout := o.requestTimeout.getD 3000
    clearOnRetry := o.clearOnRetry.getD true
    hasFillAction := o.hasFillAction
    hasVerifyAction := o.hasVerifyAction
    debug := o.debug.getD false }

/-- `FillResult` (lines 77-89). -/
structure FillResult where
  success : Bool
  attempts : Nat
  finalValue : JsVal
  error : Option String
deriving DecidableEq

/-- JS `promise.catch(() => d)` on a string-valued driver read. -/
def jsCatch (r : Except String String) (d : String) : String :=
  match r with
  | .ok v => v
  | .error _ => d

/-- The attempt-local trace: the `activeRequests` counter, the index of the
next suspension point, and the wall-clock time the attempt has consumed. -/
structure Tr where
  counter : Int := 0
  susp : Nat := 0
  dt : Nat := 0
deriving DecidableEq

/-- Fold one event batch into the counter; the listeners only fire while
registered, i.e. while `track` holds. -/
def applyEvents (track : Bool) (evs : List ReqEvent) (c : Int) : Int :=
  if track then evs.foldl applyEvent c else c

/-- One cooperative suspension point of `ms` milliseconds: the scheduled
event batch is delivered while the attempt is suspended. -/
def suspend (track : Bool) (e : AttemptEnv) (ms : Nat) (t : Tr) : Tr :=
  { counter := applyEvents track (e.eventsAt t.susp) t.counter
    susp := t.susp + 1
    dt := t.dt + ms }

/-- Step 1 of an attempt (lines 174-181): on a retry with `clearOnRetry`,
clear the field — only without a custom fill action and for a string value —
then sleep 100 ms.  A throwing `clear` propagates (to the attempt's catch). -/
def clearStage (cfg : Config) (value : JsVal) (e : AttemptEnv) (attempt : Nat)
    (t : Tr) : Except (String × Tr) Tr :=
  if 1 < attempt ∧ cfg.clearOnRetry = true then
    if cfg.hasFillAction = false ∧ value.isStr = true then
      let t1 := suspend cfg.waitForRequests e 0 t
      match e.clearRes with
      | .error m => .error (m, t1)
      | .ok _ => .ok (suspend cfg.waitForRequests e 100 t1)
    else .ok t
  else .ok t

/-- Step 2 (lines 185-188): run the custom fill action when provided
(without one the engine performs no fill of its own). -/
def fillStage (cfg : Config) (e : AttemptEnv) (t : Tr) : Except (String × Tr) Tr :=
  if cfg.hasFillAction = true then
    let t1 := suspend cfg.waitForRequests e 0 t
    match e.fillRes with
    | .error m => .error (m, t1)
    | .ok _ => .ok t1
  else .ok t

/-- The quiescence poll (lines 199-205): while the counter is positive,
break once the local elapsed time exceeds `requestTimeout`, else sleep
50 ms.  One fuel unit per sleep; the caller supplies
`cfg.requestTimeout + 1` units, more than the `requestTimeout / 50 + 1`
sleeps the elapsed-time check admits, so the fuel-out branch (which behaves
like the break) is unreachable from `settleStage`. -/
def quiesce (cfg : Config) (e : AttemptEnv) : Nat → Nat → Tr → Tr
  | fuel, elapsed, t =>
    if t.counter ≤ 0 then t
    else if cfg.requestTimeout < elapsed then t
    else
      match fuel with
      | 0 => t
      | fuel' + 1 => quiesce cfg e fuel' (elapsed + 50) (suspend cfg.waitForRequests e 50 t)

/-- Step 5 (lines 195-208): the quiescence wait runs only with request
tracking on and a strictly positive counter. -/
def settleStage (cfg : Config) (e : AttemptEnv) (t : Tr) : Tr :=
  if cfg.waitForRequests = true ∧ 0 < t.counter then
    quiesce cfg e (cfg.requestTimeout + 1) 0 t
  else t

/-- The configuration error of `verifyFill` (line 323). -/
def configErrorMsg : String := "非字符串值必须提供 verifyAction 函数"

/-- The mismatch diagnostic of line 252. -/
def mismatchMsg (expected actual : String) : String :=
  s!"值不匹配: 期望 \"{expected}\", 实际 \"{actual}\""

/-- `verifyFill` (lines 296-324): a custom predicate is awaited as given;
the default predicate compares `inputValue()` with a string value and then
requires the field not be disabled (`isDisabled().catch(false)`); a
non-string value without a custom predicate throws the configuration
error. -/
def verifyFill (cfg : Config) (value : JsVal) (e : AttemptEnv) (t : Tr) :
    Except (String × Tr) (Bool × Tr) :=
  if cfg.hasVerifyAction = true then
    let t1 := suspend cfg.waitForRequests e 0 t
    match e.verifyCustom with
    | .error m => .error (m, t1)
    | .ok b => .ok (b, t1)
  else
    match value with
    | .str s =>
      let t1 := suspend cfg.waitForRequests e 0 t
      match e.verifyInputVal with
      | .error m => .error (m, t1)
      | .ok actual =>
        if actual ≠ s then .ok (false, t1)
        else
          let t2 := suspend cfg.waitForRequests e 0 t1
          .ok (!e.disabled, t2)
    | .other _ => .error (configErrorMsg, t)

/-- The outcome of the inner try block of one attempt (lines 172-254). -/
inductive AttOut where
  | success (r : FillResult)
  | verifyFail (msg : String)
  | threw (msg : String)
deriving DecidableEq

/-- Steps 7-9 of an attempt (lines 214-253): run `verifyFill` and turn its
result into the attempt's outcome.  A thrown verification error (the
configuration error included) propagates to the attempt's catch; on
success the final value is snapshotted (`inputValue().catch` falling back
to the intended value, or the intended value itself under a custom
verifier); on mismatch the actual value is read for the diagnostic. -/
def verifyOutcome (cfg : Config) (value : JsVal) (e : AttemptEnv) (attempt : Nat)
    (t : Tr) : AttOut × Nat :=
  match verifyFill cfg value e t with
  | .error (m, u) => (.threw m, u.dt)
  | .ok (true, u) =>
    if cfg.hasVerifyAction = true then
      (.success { success := true, attempts := attempt, finalValue := value,
                  error := none }, u.dt)
    else
      let u2 := suspend cfg.waitForRequests e 0 u
      let fv : JsVal :=
        match e.successInputVal with
        | .ok v => .str v
        | .error _ => value
      (.success { success := true, attempts := attempt, finalValue := fv,
                  error := none }, u2.dt)
  | .ok (false, u) =>
    let u2 := suspend cfg.waitForRequests e 0 u
    (.verifyFail (mismatchMsg value.jsString (jsCatch e.failInputVal "(无法获取)")),
     u2.dt)

/-- The inner try block of attempt number `attempt` (lines 172-254),
returning the outcome and the wall-clock time consumed.  Steps: clear on
retry, fill, sleep `waitAfterBlur`, quiescence wait, sleep
`waitBeforeVerify`, then verify (`verifyOutcome`). -/
def attemptInner (cfg : Config) (value : JsVal) (e : AttemptEnv) (attempt : Nat) :
    AttOut × Nat :=
  match clearStage cfg value e attempt {} with
  | .error (m, t) => (.threw m, t.dt)
  | .ok t1 =>
    match fillStage cfg e t1 with
    | .error (m, t) => (.threw m, t.dt)
    | .ok t2 =>
      let t3 := suspend cfg.waitForRequests e cfg.waitAfterBlur t2
      let t4 := settleStage cfg e t3
      let t5 := suspend cfg.waitForRequests e cfg.waitBeforeVerify t4
      verifyOutcome cfg value e attempt t5

/-- The driver-global state the engine touches: the number of registered
`request` / `requestfinished` / `requestfailed` listeners, and time. -/
structure DrvState where
  reqL : Nat := 0
  finL : Nat := 0
  failL : Nat := 0
  time : Nat := 0
deriving DecidableEq

/-- `page.on` of the three tracker listeners (lines 166-170). -/
def registerTrackers (st : DrvState) : DrvState :=
  { st with reqL := st.reqL + 1, finL := st.finL + 1, failL := st.failL + 1 }

/-- `page.off` of the three tracker listeners (lines 255-262). -/
def unregisterTrackers (st : DrvState) : DrvState :=
  { st with reqL := st.reqL - 1, finL := st.finL - 1, failL := st.failL - 1 }

/-- One attempt with its listener scope: register when tracking, run the
inner try block, and unregister in the `finally` — on success, mismatch and
thrown error alike. -/
def runAttempt (cfg : Config) (value : JsVal) (e : AttemptEnv) (attempt : Nat)
    (st : DrvState) : AttOut × DrvState :=
  let st1 := if cfg.waitForRequests then registerTrackers st else st
  match attemptInner cfg value e attempt with
  | (out, dt) =>
    let st2 := { st1 with time := st1.time + dt }
    (out, if cfg.waitForRequests then unregisterTrackers st2 else st2)

/-- The retry loop of `fillWithRetry` (lines 157-291): `remaining` counts
the attempts the `for` bound still admits (`maxRetries + 2 - attempt`), so
`remaining = 0` is loop exit, producing the exhaustion result of lines
281-290 (`attempts = maxRetries + 1`, best-effort final read, last error or
the unknown-error fallback).  A mismatch and a thrown error alike record
the message and sleep `retryDelay` when a retry is left. -/
def fillGo (cfg : Config) (value : JsVal) (env : Nat → AttemptEnv)
    (exhaustRead : Except String String) :
    Nat → Nat → String → DrvState → FillResult × DrvState
  | _, 0, lastError, st =>
    ({ success := false
       attempts := cfg.maxRetries + 1
       finalValue := .str (jsCatch exhaustRead "")
       error := some (if lastError = "" then "未知错误" else lastError) }, st)
  | attempt, remaining + 1, _lastError, st =>
    match runAttempt cfg value (env attempt) attempt st with
    | (.success r, st1) => (r, st1)
    | (.verifyFail m, st1) =>
      let st2 :=
        if attempt ≤ cfg.maxRetries then { st1 with time := st1.time + cfg.retryDelay }
        else st1
      fillGo cfg value env exhaustRead (attempt + 1) remaining m st2
    | (.threw m, st1) =>
      let st2 :=
        if attempt ≤ cfg.maxRetries then { st1 with time := st1.time + cfg.retryDelay }
        else st1
      fillGo cfg value env exhaustRead (attempt + 1) remaining m st2

/-- `fillWithRetry` (lines 127-291): merge the options with the defaults
and run attempts `1 .. maxRetries + 1`.  Total: exhaustion is returned as a
failure result, never thrown. -/
def fillWithRetry (o : FillOptions) (value : JsVal) (env : Nat → AttemptEnv)
    (exhaustRead : Except String String) (st : DrvState) : FillResult × DrvState :=
  let cfg := resolveConfig o
  fillGo cfg value env exhaustRead 1 (cfg.maxRetries + 1) "" st

/-- One entry of the `fields` array of `fillMultiple`: the intended value,
the per-field options, and the oracles of the field's locator. -/
structure Field where
  value : JsVal
  options : FillOptions := {}
  env : Nat → AttemptEnv := fun _ => {}
  exhaustRead : Except String String := .ok ""

/-- `fillMultiple` (lines 346-371): sequentially, in input order, run
`fillWithRetry` on each field with the spread-merged options and collect
one result per field; a failed field only logs when `debug` is set and
never stops the batch. -/
def fillMultiple : List Field → FillOptions → DrvState → List FillResult × DrvState
  | [], _, st => ([], st)
  | f :: rest, g, st =>
    match fillWithRetry (mergeOptions g f.options) f.value f.env f.exhaustRead st with
    | (r, st1) =>
      match fillMultiple rest g st1 with
      | (rs, st2) => (r :: rs, st2)

end FormFillUtil

/-! ## Concrete instances used by witnesses and counterexamples -/

def sampleRequestA : JsRequest :=
  { url := "https://host/get-current-user", method := "GET", headers := [],
    postDataRaw := none }

def sampleResponseA : JsResponse :=
  { url := "https://host/get-current-user", status := 200, statusText := "OK",
    headers := [("content-type", "application/json")], bodyText := some "one",
    request := sampleRequestA }

def sampleRequestB : JsRequest :=
  { url := "https://host/update-user-info", method := "POST", headers := [],
    postDataRaw := some "user_id=21331" }

def sampleResponseB : JsResponse :=
  { url := "https://host/update-user-info", status := 201, statusText := "Created",
    headers := [], bodyText := some "two", request := sampleRequestB }

/-- A capturing correlator whose buffer already holds two pairs, the pair of
`sampleResponseB` appended last. -/
def bufferedTwo : HttpCaptureState :=
  { urlPattern := .substring "user", lastIndex := 0,
    capturedData := [mkCapturedPair sampleResponseA, mkCapturedPair sampleResponseB],
    requestHandlerOn := true, responseHandlerOn := true, isCapturing := true }

/-- An event schedule that delivers nothing. -/
def schedNone : Nat → List HttpCapture.PageEvent := fun _ => []

/-- A correlator just after `startCapture`, with an empty buffer. -/
def emptyCapturing : HttpCaptureState :=
  HttpCapture.startCapture (HttpCapture.new (.substring "/api"))

/-- The JS regex `/b/g`: a global regex matching the literal `b`. -/
def gRegexB : JsRegExp := { globalFlag := true, find := literalFind "b" }

/-- Options with `maxRetries: 1`, everything else defaulted. -/
def optsOneRetry : FormFillUtil.FillOptions := { maxRetries := some 1 }

/-- Options with `maxRetries: 2`, everything else defaulted. -/
def optsTwoRetries : FormFillUtil.FillOptions := { maxRetries := some 2 }

/-- A page that delivers no request events and whose driver calls all
succeed with the defaults. -/
def envQuiet : Nat → FormFillUtil.AttemptEnv := fun _ => {}

/-- A field whose `inputValue()` always reads `"b"`, so the default
verification of an intended `"a"` fails on every attempt. -/
def envMismatch : Nat → FormFillUtil.AttemptEnv :=
  fun _ => { verifyInputVal := .ok "b" }

/-- The fully defaulted merged configuration (`trackRequests` on,
`requestTimeout` 3000, `maxRetries` 3). -/
def cfgDefault : FormFillUtil.Config := FormFillUtil.resolveConfig {}

/-- A page delivering, at every suspension point, two `requestfinished`
events for requests that started before the attempt's listeners were
registered. -/
def envPreFinished : FormFillUtil.AttemptEnv :=
  { eventsAt := fun _ => [.finished, .finished] }

/-- An attempt trace with one counted in-flight request. -/
def trOne : FormFillUtil.Tr := { counter := 1 }

/-! ## Helper lemmas on the correlator -/

theorem deliver_preserves (st : HttpCaptureState) (ev : HttpCapture.PageEvent) :
    (HttpCapture.deliver st ev).requestHandlerOn = st.requestHandlerOn
    ∧ (HttpCapture.deliver st ev).responseHandlerOn = st.responseHandlerOn
    ∧ (HttpCapture.deliver st ev).urlPattern = st.urlPattern := by
  cases ev <;>
    simp only [HttpCapture.deliver, HttpCapture.onRequest, HttpCapture.onResponse] <;>
    refine ⟨?_, ?_, ?_⟩ <;> (repeat' split) <;> rfl

theorem deliver_append_only (st : HttpCaptureState) (ev : HttpCapture.PageEvent) :
    ∃ extra, (HttpCapture.deliver st ev).capturedData = st.capturedData ++ extra := by
  cases ev <;>
    simp only [HttpCapture.deliver, HttpCapture.onRequest, HttpCapture.onResponse]
  case request r =>
    split
    · exact ⟨[], by simp⟩
    · exact ⟨[], by simp⟩
  case response r =>
    split
    · split
      · exact ⟨[mkCapturedPair r], by simp⟩
      · exact ⟨[], by simp⟩
    · exact ⟨[], by simp⟩

theorem deliverAll_append_only (evs : List HttpCapture.PageEvent)
    (st : HttpCaptureState) :
    ∃ extra, (HttpCapture.deliverAll st evs).capturedData = st.capturedData ++ extra := by
  induction evs generalizing st with
  | nil => exact ⟨[], by simp [HttpCapture.deliverAll]⟩
  | cons ev rest ih =>
    obtain ⟨e1, h1⟩ := deliver_append_only st ev
    obtain ⟨e2, h2⟩ := ih (HttpCapture.deliver st ev)
    refine ⟨e1 ++ e2, ?_⟩
    simpa [HttpCapture.deliverAll, h1, List.append_assoc] using h2

theorem deliverAll_cons (st : HttpCaptureState) (ev : HttpCapture.PageEvent)
    (rest : List HttpCapture.PageEvent) :
    HttpCapture.deliverAll st (ev :: rest)
      = HttpCapture.deliverAll (HttpCapture.deliver st ev) rest := rfl

/-- While both listeners are registered, delivering events appends exactly
the pairs of the matched responses, in arrival order. -/
theorem deliverAll_captured (evs : List HttpCapture.PageEvent) (st : HttpCaptureState)
    (hreq : st.requestHandlerOn = true) (hresp : st.responseHandlerOn = true) :
    (HttpCapture.deliverAll st evs).capturedData
      = st.capturedData ++ HttpCapture.matchedPairs st.urlPattern st.lastIndex evs := by
  induction evs generalizing st with
  | nil => simp [HttpCapture.deliverAll, HttpCapture.matchedPairs]
  | cons ev rest ih =>
    rw [deliverAll_cons]
    cases ev with
    | request r =>
      have hd : HttpCapture.deliver st (.request r)
          = { st with lastIndex := (matchesPattern st.urlPattern st.lastIndex r.url).2 } := by
        simp [HttpCapture.deliver, HttpCapture.onRequest, hreq]
      rw [hd, ih _ (by simp [hreq]) (by simp [hresp])]
      simp [HttpCapture.matchedPairs]
    | response r =>
      by_cases hm : (matchesPattern st.urlPattern st.lastIndex r.url).1 = true
      · have hd : HttpCapture.deliver st (.response r)
            = { st with
                lastIndex := (matchesPattern st.urlPattern st.lastIndex r.url).2
                capturedData := st.capturedData ++ [mkCapturedPair r] } := by
          simp [HttpCapture.deliver, HttpCapture.onResponse, hresp, hm]
        rw [hd, ih _ (by simp [hreq]) (by simp [hresp])]
        simp [HttpCapture.matchedPairs, hm]
      · have hd : HttpCapture.deliver st (.response r)
            = { st with lastIndex := (matchesPattern st.urlPattern st.lastIndex r.url).2 } := by
          simp [HttpCapture.deliver, HttpCapture.onResponse, hresp, hm]
        rw [hd, ih _ (by simp [hreq]) (by simp [hresp])]
        simp [HttpCapture.matchedPairs, hm]

theorem deliverAll_append (st : HttpCaptureState)
    (a b : List HttpCapture.PageEvent) :
    HttpCapture.deliverAll st (a ++ b)
      = HttpCapture.deliverAll (HttpCapture.deliverAll st a) b := by
  simp [HttpCapture.deliverAll, List.foldl_append]

theorem schedFlat_succ (sched : Nat → List HttpCapture.PageEvent) (k : Nat) :
    HttpCapture.schedFlat sched (k + 1)
      = HttpCapture.schedFlat sched k ++ sched k := by
  simp [HttpCapture.schedFlat, List.range_succ]

theorem schedNone_flat (k : Nat) : HttpCapture.schedFlat schedNone k = [] := by
  induction k with
  | zero => rfl
  | succ n ih => rw [schedFlat_succ, ih]; rfl

/-- An empty-buffered polling loop — over any pattern — whose schedule
delivers no matching response (no prefix of the delivered events yields a
matched pair) throws the timeout error, at an elapsed time of at least
`timeout` whenever the fuel budget covers the deadline.  The loop state
after `poll` sleeps is the base state with the first `poll` batches
delivered. -/
theorem waitLoop_timeout (timeout : Nat) (sched : Nat → List HttpCapture.PageEvent)
    (st0 : HttpCaptureState)
    (hreq : st0.requestHandlerOn = true) (hresp : st0.responseHandlerOn = true)
    (h0 : st0.capturedData = [])
    (hno : ∀ k, HttpCapture.matchedPairs st0.urlPattern st0.lastIndex
      (HttpCapture.schedFlat sched k) = []) :
    ∀ (fuel elapsed poll : Nat),
      timeout ≤ elapsed + 100 * fuel →
      (HttpCapture.waitLoop timeout sched fuel elapsed poll
          (HttpCapture.deliverAll st0 (HttpCapture.schedFlat sched poll))).1
        = .error (HttpCapture.timeoutMessage timeout)
      ∧ timeout ≤ (HttpCapture.waitLoop timeout sched fuel elapsed poll
          (HttpCapture.deliverAll st0 (HttpCapture.schedFlat sched poll))).2.2 := by
  have hbuf : ∀ poll : Nat,
      (HttpCapture.deliverAll st0 (HttpCapture.schedFlat sched poll)).capturedData
        = [] := by
    intro poll
    rw [deliverAll_captured (HttpCapture.schedFlat sched poll) st0 hreq hresp, h0,
      hno poll]
    rfl
  intro fuel
  induction fuel with
  | zero =>
    intro elapsed poll hinv
    rw [HttpCapture.waitLoop]
    split
    · rw [hbuf poll]
      exact ⟨rfl, show timeout ≤ elapsed by omega⟩
    · exact ⟨rfl, show timeout ≤ elapsed by omega⟩
  | succ f ih =>
    intro elapsed poll hinv
    rw [HttpCapture.waitLoop]
    split
    · rw [hbuf poll]
      simp only [List.getLast?_nil]
      rw [← deliverAll_append, ← schedFlat_succ]
      exact ih (elapsed + 100) (poll + 1) (by omega)
    · exact ⟨rfl, show timeout ≤ elapsed by omega⟩

/-- The polling loop never removes buffered pairs. -/
theorem waitLoop_append_only (timeout : Nat) (sched : Nat → List HttpCapture.PageEvent) :
    ∀ (fuel elapsed poll : Nat) (st : HttpCaptureState),
      ∃ extra, ((HttpCapture.waitLoop timeout sched fuel elapsed poll st).2.1).capturedData
        = st.capturedData ++ extra := by
  intro fuel
  induction fuel with
  | zero =>
    intro elapsed poll st
    rw [HttpCapture.waitLoop]
    split
    · cases hl : st.capturedData.getLast? <;> simp
    · simp
  | succ f ih =>
    intro elapsed poll st
    rw [HttpCapture.waitLoop]
    split
    · cases hl : st.capturedData.getLast? with
      | none =>
        obtain ⟨e1, h1⟩ := deliverAll_append_only (sched poll) st
        obtain ⟨e2, h2⟩ := ih (elapsed + 100) (poll + 1) (HttpCapture.deliverAll st (sched poll))
        exact ⟨e1 ++ e2, by simp [h2, h1, List.append_assoc]⟩
      | some p => simp
    · simp

/-- `stopCapture` in one step: while capturing it turns off the flag and
both listeners; otherwise it is the identity. -/
theorem stopCapture_closed_form (st : HttpCaptureState) :
    HttpCapture.stopCapture st
      = if st.isCapturing then
          { st with
            isCapturing := false
            requestHandlerOn := false
            responseHandlerOn := false }
        else st := by
  obtain ⟨up, li, cd, rq, rs, ic⟩ := st
  cases ic <;> cases rq <;> cases rs <;> rfl

/-! ## Claim theorems for the correlator -/

/-- C2: when the buffer is non-empty, `waitForNextCapture` returns at once —
zero elapsed time, no polling sleep, the state untouched — and the pair it
returns is the most recently appended one (the last element in append
order). -/
theorem waitForNextCapture_returns_latest (timeout : Nat)
    (sched : Nat → List HttpCapture.PageEvent) (st : HttpCaptureState)
    (p : CapturedHttpData) (h : st.capturedData.getLast? = some p) :
    HttpCapture.waitForNextCapture timeout sched st = (.ok p, st, 0) := by
  unfold HttpCapture.waitForNextCapture
  rw [h]

/-- C2 witness: on a buffer of two pairs the call returns the second
(latest) pair immediately, which differs from the oldest buffered one. -/
theorem waitForNextCapture_returns_latest_witness :
    HttpCapture.waitForNextCapture 1000 schedNone bufferedTwo
      = (.ok (mkCapturedPair sampleResponseB), bufferedTwo, 0)
    ∧ mkCapturedPair sampleResponseB ≠ mkCapturedPair sampleResponseA :=
  ⟨waitForNextCapture_returns_latest 1000 schedNone bufferedTwo
      (mkCapturedPair sampleResponseB) (by decide), by decide⟩

/-- C3 counterexample: with the global regex `/b/g` as the pattern, two
evaluations of `matchesPattern` on the same URL `"ab"` return different
results — the first `test` advances the regex's `lastIndex` past the match,
so the second fails.  The match is therefore not stateless for every
pattern. -/
theorem matchesPattern_global_regex_stateful :
    (matchesPattern (.regex gRegexB) 0 "ab").1 = true
    ∧ (matchesPattern (.regex gRegexB)
        (matchesPattern (.regex gRegexB) 0 "ab").2 "ab").1 = false := by
  decide

/-- C3 (amended): a substring pattern matches iff the URL contains the
substring, a regex without the global flag matches iff its engine matches
the full URL from position 0, and for these patterns the match is pure and
stateless: the result is independent of the stored `lastIndex`, which is
left unchanged.  (A regex with the global flag is stateful; see the
counterexample.) -/
theorem matchesPattern_stateless_when_pure :
    (∀ (s : String) (li : Nat) (url : String),
      matchesPattern (.substring s) li url = (jsIncludes url s, li))
    ∧ (∀ (re : JsRegExp) (li : Nat) (url : String), re.globalFlag = false →
      matchesPattern (.regex re) li url = ((re.find url 0).isSome, li))
    ∧ (∀ (p : UrlPattern) (li li' : Nat) (url : String), p.stateless = true →
      (matchesPattern p li url).1 = (matchesPattern p li' url).1
      ∧ (matchesPattern p li url).2 = li) := by
  refine ⟨fun s li url => rfl, fun re li url h => ?_, fun p li li' url h => ?_⟩
  · simp [matchesPattern, JsRegExp.test, h]
  · cases p with
    | substring s => simp [matchesPattern]
    | regex re =>
      simp only [UrlPattern.stateless, Bool.not_eq_true'] at h
      simp [matchesPattern, JsRegExp.test, h]

/-- C5: for every pattern (substring or regex, the stateful global regexes
included), a capturing correlator with an empty buffer whose event stream
delivers zero matching responses — no prefix of the delivered events
yields a matched pair — fails `waitForNextCapture` with the timeout error,
and the elapsed wall-clock time at the failure is at least `timeoutMs` —
never earlier. -/
theorem waitForNextCapture_times_out (timeout : Nat)
    (sched : Nat → List HttpCapture.PageEvent) (st : HttpCaptureState)
    (hreq : st.requestHandlerOn = true) (hresp : st.responseHandlerOn = true)
    (h0 : st.capturedData = [])
    (hno : ∀ k, HttpCapture.matchedPairs st.urlPattern st.lastIndex
      (HttpCapture.schedFlat sched k) = []) :
    (HttpCapture.waitForNextCapture timeout sched st).1
        = .error (HttpCapture.timeoutMessage timeout)
    ∧ timeout ≤ (HttpCapture.waitForNextCapture timeout sched st).2.2 := by
  unfold HttpCapture.waitForNextCapture
  rw [h0]
  simp only [List.getLast?_nil]
  exact waitLoop_timeout timeout sched st hreq hresp h0 hno timeout 0 0 (by omega)

/-- C5 witness: a freshly started correlator on the substring `"/api"` with
an empty schedule times out at 250 ms with elapsed time at least 250. -/
theorem waitForNextCapture_times_out_witness :
    (HttpCapture.waitForNextCapture 250 schedNone emptyCapturing).1
        = .error (HttpCapture.timeoutMessage 250)
    ∧ 250 ≤ (HttpCapture.waitForNextCapture 250 schedNone emptyCapturing).2.2 :=
  waitForNextCapture_times_out 250 schedNone emptyCapturing rfl rfl rfl
    (fun k => by rw [schedNone_flat k]; rfl)

/-- C6: after `startCapture` (which empties the buffer) or `clear`, a
correlator that observes exactly the matched responses of an event stream
holds exactly those pairs, in arrival order, and `getAllCapturedData`
returns that snapshot; `waitForNextCapture` never consumes or clears the
buffer — however often it is called, the buffer only ever grows by newly
delivered captures. -/
theorem getAllCapturedData_snapshot :
    (∀ (p : UrlPattern) (evs : List HttpCapture.PageEvent),
      HttpCapture.getAllCapturedData
          (HttpCapture.deliverAll (HttpCapture.startCapture (HttpCapture.new p)) evs)
        = HttpCapture.matchedPairs p 0 evs)
    ∧ (∀ (st : HttpCaptureState) (evs : List HttpCapture.PageEvent),
      st.requestHandlerOn = true → st.responseHandlerOn = true →
      HttpCapture.getAllCapturedData (HttpCapture.deliverAll (HttpCapture.clear st) evs)
        = HttpCapture.matchedPairs st.urlPattern st.lastIndex evs)
    ∧ (∀ (timeout : Nat) (sched : Nat → List HttpCapture.PageEvent)
        (st : HttpCaptureState),
      ∃ extra, ((HttpCapture.waitForNextCapture timeout sched st).2.1).capturedData
        = st.capturedData ++ extra) := by
  refine ⟨fun p evs => ?_, fun st evs hreq hresp => ?_, fun timeout sched st => ?_⟩
  · have h := deliverAll_captured evs
      (HttpCapture.startCapture (HttpCapture.new p)) rfl rfl
    simpa [HttpCapture.getAllCapturedData, HttpCapture.startCapture,
      HttpCapture.new] using h
  · have h := deliverAll_captured evs (HttpCapture.clear st)
      (by simpa [HttpCapture.clear] using hreq)
      (by simpa [HttpCapture.clear] using hresp)
    simpa [HttpCapture.getAllCapturedData, HttpCapture.clear] using h
  · unfold HttpCapture.waitForNextCapture
    cases hl : st.capturedData.getLast? with
    | none => exact waitLoop_append_only timeout sched timeout 0 0 st
    | some p => exact ⟨[], by simp⟩

/-- C7: `stopCapture` is idempotent, leaves the buffer untouched,
unregisters both driver listeners, and a response delivered afterwards —
matching or not — changes nothing, so no new entry is buffered.  The two
hypotheses are the evident reachability invariant that listeners are only
registered while capturing. -/
theorem stopCapture_idempotent_frame (st : HttpCaptureState) (r : JsResponse)
    (hreq : st.requestHandlerOn = true → st.isCapturing = true)
    (hresp : st.responseHandlerOn = true → st.isCapturing = true) :
    HttpCapture.stopCapture (HttpCapture.stopCapture st) = HttpCapture.stopCapture st
    ∧ (HttpCapture.stopCapture st).capturedData = st.capturedData
    ∧ (HttpCapture.stopCapture st).requestHandlerOn = false
    ∧ (HttpCapture.stopCapture st).responseHandlerOn = false
    ∧ HttpCapture.onResponse (HttpCapture.stopCapture st) r
        = HttpCapture.stopCapture st := by
  by_cases hc : st.isCapturing
  · simp only [stopCapture_closed_form]
    simp [hc, HttpCapture.onResponse]
  · have hrq : st.requestHandlerOn = false := by
      cases h : st.requestHandlerOn
      · rfl
      · exact absurd (hreq h) hc
    have hrs : st.responseHandlerOn = false := by
      cases h : st.responseHandlerOn
      · rfl
      · exact absurd (hresp h) hc
    simp only [stopCapture_closed_form]
    simp [hc, HttpCapture.onResponse, hrq, hrs]

/-- C7 witness: stopping the two-pair capture keeps both pairs, turns both
listeners off, is idempotent, and a further matching response appends
nothing. -/
theorem stopCapture_idempotent_frame_witness :
    HttpCapture.stopCapture (HttpCapture.stopCapture bufferedTwo)
        = HttpCapture.stopCapture bufferedTwo
    ∧ (HttpCapture.stopCapture bufferedTwo).capturedData = bufferedTwo.capturedData
    ∧ (HttpCapture.stopCapture bufferedTwo).requestHandlerOn = false
    ∧ (HttpCapture.stopCapture bufferedTwo).responseHandlerOn = false
    ∧ HttpCapture.onResponse (HttpCapture.stopCapture bufferedTwo) sampleResponseB
        = HttpCapture.stopCapture bufferedTwo :=
  stopCapture_idempotent_frame bufferedTwo sampleResponseB (fun _ => rfl) (fun _ => rfl)

/-! ## Helper lemmas on the retry-verify engine -/

theorem clearStage_ok (cfg : FormFillUtil.Config) (value : FormFillUtil.JsVal)
    (e : FormFillUtil.AttemptEnv) (attempt : Nat) (t : FormFillUtil.Tr)
    (h : e.clearRes = .ok ()) :
    ∃ u, FormFillUtil.clearStage cfg value e attempt t = .ok u := by
  unfold FormFillUtil.clearStage
  split
  · split
    · rw [h]
      exact ⟨_, rfl⟩
    · exact ⟨_, rfl⟩
  · exact ⟨_, rfl⟩

theorem fillStage_ok (cfg : FormFillUtil.Config) (e : FormFillUtil.AttemptEnv)
    (t : FormFillUtil.Tr) (h : e.fillRes = .ok ()) :
    ∃ u, FormFillUtil.fillStage cfg e t = .ok u := by
  unfold FormFillUtil.fillStage
  split
  · rw [h]
    exact ⟨_, rfl⟩
  · exact ⟨_, rfl⟩

/-- When neither the clear nor the fill action throws, the attempt always
reaches the verification step. -/
theorem attemptInner_reaches_verify (cfg : FormFillUtil.Config)
    (value : FormFillUtil.JsVal) (e : FormFillUtil.AttemptEnv) (attempt : Nat)
    (hclear : e.clearRes = .ok ()) (hfill : e.fillRes = .ok ()) :
    ∃ t, FormFillUtil.attemptInner cfg value e attempt
      = FormFillUtil.verifyOutcome cfg value e attempt t := by
  obtain ⟨t1, h1⟩ := clearStage_ok cfg value e attempt {} hclear
  obtain ⟨t2, h2⟩ := fillStage_ok cfg e t1 hfill
  refine ⟨FormFillUtil.suspend cfg.waitForRequests e cfg.waitBeforeVerify
    (FormFillUtil.settleStage cfg e
      (FormFillUtil.suspend cfg.waitForRequests e cfg.waitAfterBlur t2)), ?_⟩
  simp only [FormFillUtil.attemptInner, h1, h2]

/-- A verification that returns false makes the attempt a `verifyFail`. -/
theorem verifyOutcome_false (cfg : FormFillUtil.Config) (value : FormFillUtil.JsVal)
    (e : FormFillUtil.AttemptEnv) (attempt : Nat) (t u : FormFillUtil.Tr)
    (h : FormFillUtil.verifyFill cfg value e t = .ok (false, u)) :
    ∃ m, (FormFillUtil.verifyOutcome cfg value e attempt t).1
      = .verifyFail m := by
  refine ⟨FormFillUtil.mismatchMsg value.jsString
    (FormFillUtil.jsCatch e.failInputVal "(无法获取)"), ?_⟩
  simp only [FormFillUtil.verifyOutcome, h]

/-- A non-string value without a custom verifier makes the attempt throw
the configuration error (caught by the attempt's catch). -/
theorem attemptInner_threw_config (cfg : FormFillUtil.Config)
    (value : FormFillUtil.JsVal) (e : FormFillUtil.AttemptEnv) (attempt : Nat)
    (hv : cfg.hasVerifyAction = false) (hstr : value.isStr = false)
    (hfill : e.fillRes = .ok ()) :
    (FormFillUtil.attemptInner cfg value e attempt).1
      = .threw FormFillUtil.configErrorMsg := by
  cases value with
  | str s => simp [FormFillUtil.JsVal.isStr] at hstr
  | other d =>
    have hclear : FormFillUtil.clearStage cfg (.other d) e attempt {} = .ok {} := by
      unfold FormFillUtil.clearStage
      split
      · rw [if_neg]
        intro hcon
        simpa [FormFillUtil.JsVal.isStr] using hcon.2
      · rfl
    obtain ⟨t2, h2⟩ := fillStage_ok cfg e {} hfill
    simp only [FormFillUtil.attemptInner, hclear, h2]
    simp [FormFillUtil.verifyOutcome, FormFillUtil.verifyFill, hv]

theorem runAttempt_fst (cfg : FormFillUtil.Config) (value : FormFillUtil.JsVal)
    (e : FormFillUtil.AttemptEnv) (attempt : Nat) (st : FormFillUtil.DrvState) :
    (FormFillUtil.runAttempt cfg value e attempt st).1
      = (FormFillUtil.attemptInner cfg value e attempt).1 := by
  unfold FormFillUtil.runAttempt
  rcases FormFillUtil.attemptInner cfg value e attempt with ⟨out, dt⟩
  rfl

/-- The attempt's listener bracket is balanced on every exit path. -/
theorem runAttempt_listeners (cfg : FormFillUtil.Config) (value : FormFillUtil.JsVal)
    (e : FormFillUtil.AttemptEnv) (attempt : Nat) (st : FormFillUtil.DrvState) :
    (FormFillUtil.runAttempt cfg value e attempt st).2.reqL = st.reqL
    ∧ (FormFillUtil.runAttempt cfg value e attempt st).2.finL = st.finL
    ∧ (FormFillUtil.runAttempt cfg value e attempt st).2.failL = st.failL := by
  unfold FormFillUtil.runAttempt
  rcases FormFillUtil.attemptInner cfg value e attempt with ⟨out, dt⟩
  by_cases h : cfg.waitForRequests <;>
    simp [h, FormFillUtil.registerTrackers, FormFillUtil.unregisterTrackers]

/-- The whole retry loop preserves the listener registry. -/
theorem fillGo_listeners (cfg : FormFillUtil.Config) (value : FormFillUtil.JsVal)
    (env : Nat → FormFillUtil.AttemptEnv) (x : Except String String) :
    ∀ (remaining attempt : Nat) (le : String) (st : FormFillUtil.DrvState),
      (FormFillUtil.fillGo cfg value env x attempt remaining le st).2.reqL = st.reqL
      ∧ (FormFillUtil.fillGo cfg value env x attempt remaining le st).2.finL = st.finL
      ∧ (FormFillUtil.fillGo cfg value env x attempt remaining le st).2.failL = st.failL := by
  intro remaining
  induction remaining with
  | zero => intro attempt le st; exact ⟨rfl, rfl, rfl⟩
  | succ r ih =>
    intro attempt le st
    have hl := runAttempt_listeners cfg value (env attempt) attempt st
    rcases hra : FormFillUtil.runAttempt cfg value (env attempt) attempt st with ⟨out, st1⟩
    rw [hra] at hl
    simp only [FormFillUtil.fillGo, hra]
    cases out with
    | success r0 => exact hl
    | verifyFail m =>
      have := ih (attempt + 1) m
        (if attempt ≤ cfg.maxRetries then { st1 with time := st1.time + cfg.retryDelay }
         else st1)
      constructor
      · rw [this.1]
        split <;> exact hl.1
      constructor
      · rw [this.2.1]
        split <;> exact hl.2.1
      · rw [this.2.2]
        split <;> exact hl.2.2
    | threw m =>
      have := ih (attempt + 1) m
        (if attempt ≤ cfg.maxRetries then { st1 with time := st1.time + cfg.retryDelay }
         else st1)
      constructor
      · rw [this.1]
        split <;> exact hl.1
      constructor
      · rw [this.2.1]
        split <;> exact hl.2.1
      · rw [this.2.2]
        split <;> exact hl.2.2

/-- The fill result does not depend on the incoming driver state (only the
listener counts and the clock live there, and they never feed back). -/
theorem fillGo_fst_state (cfg : FormFillUtil.Config) (value : FormFillUtil.JsVal)
    (env : Nat → FormFillUtil.AttemptEnv) (x : Except String String) :
    ∀ (remaining attempt : Nat) (le : String) (st st' : FormFillUtil.DrvState),
      (FormFillUtil.fillGo cfg value env x attempt remaining le st).1
        = (FormFillUtil.fillGo cfg value env x attempt remaining le st').1 := by
  intro remaining
  induction remaining with
  | zero => intro attempt le st st'; rfl
  | succ r ih =>
    intro attempt le st st'
    have h1 := runAttempt_fst cfg value (env attempt) attempt st
    have h2 := runAttempt_fst cfg value (env attempt) attempt st'
    rcases hra : FormFillUtil.runAttempt cfg value (env attempt) attempt st with ⟨out, st1⟩
    rcases hrb : FormFillUtil.runAttempt cfg value (env attempt) attempt st' with ⟨out2, st2⟩
    rw [hra] at h1
    rw [hrb] at h2
    have hout : out2 = out := h2.trans h1.symm
    subst hout
    simp only [FormFillUtil.fillGo, hra, hrb]
    cases out2 with
    | success r0 => rfl
    | verifyFail m => exact ih (attempt + 1) m _ _
    | threw m => exact ih (attempt + 1) m _ _

theorem fillWithRetry_fst_state (o : FormFillUtil.FillOptions)
    (value : FormFillUtil.JsVal) (env : Nat → FormFillUtil.AttemptEnv)
    (x : Except String String) (st st' : FormFillUtil.DrvState) :
    (FormFillUtil.fillWithRetry o value env x st).1
      = (FormFillUtil.fillWithRetry o value env x st').1 :=
  fillGo_fst_state (FormFillUtil.resolveConfig o) value env x
    ((FormFillUtil.resolveConfig o).maxRetries + 1) 1 "" st st'

/-- When every attempt reaches verification and it always returns false,
the loop exhausts all admitted attempts and fails. -/
theorem fillGo_exhausts (cfg : FormFillUtil.Config) (value : FormFillUtil.JsVal)
    (env : Nat → FormFillUtil.AttemptEnv) (x : Except String String)
    (hco : ∀ k, (env k).clearRes = .ok () ∧ (env k).fillRes = .ok ())
    (hvf : ∀ k t, ∃ u, FormFillUtil.verifyFill cfg value (env k) t = .ok (false, u)) :
    ∀ (remaining attempt : Nat) (le : String) (st : FormFillUtil.DrvState),
      (FormFillUtil.fillGo cfg value env x attempt remaining le st).1.success = false
      ∧ (FormFillUtil.fillGo cfg value env x attempt remaining le st).1.attempts
          = cfg.maxRetries + 1 := by
  intro remaining
  induction remaining with
  | zero => intro attempt le st; exact ⟨rfl, rfl⟩
  | succ r ih =>
    intro attempt le st
    obtain ⟨t5, ht5⟩ := attemptInner_reaches_verify cfg value (env attempt) attempt
      (hco attempt).1 (hco attempt).2
    obtain ⟨u, hu⟩ := hvf attempt t5
    obtain ⟨m, hm⟩ := verifyOutcome_false cfg value (env attempt) attempt t5 u hu
    have hout : (FormFillUtil.attemptInner cfg value (env attempt) attempt).1
        = .verifyFail m := by rw [ht5]; exact hm
    have hfst := runAttempt_fst cfg value (env attempt) attempt st
    rcases hra : FormFillUtil.runAttempt cfg value (env attempt) attempt st with ⟨out, st1⟩
    rw [hra] at hfst
    rw [hout] at hfst
    subst hfst
    simp only [FormFillUtil.fillGo, hra]
    exact ih (attempt + 1) m _

/-- A non-string value without a custom verifier: every attempt throws the
configuration error, which is caught and retried; the loop returns the
exhaustion result carrying that error. -/
theorem fillGo_config_error (cfg : FormFillUtil.Config) (value : FormFillUtil.JsVal)
    (env : Nat → FormFillUtil.AttemptEnv) (x : Except String String)
    (hv : cfg.hasVerifyAction = false) (hstr : value.isStr = false)
    (hfill : ∀ k, (env k).fillRes = .ok ()) :
    ∀ (remaining attempt : Nat) (le : String) (st : FormFillUtil.DrvState),
      1 ≤ remaining →
      (FormFillUtil.fillGo cfg value env x attempt remaining le st).1
        = { success := false, attempts := cfg.maxRetries + 1,
            finalValue := .str (FormFillUtil.jsCatch x ""),
            error := some FormFillUtil.configErrorMsg } := by
  intro remaining
  induction remaining with
  | zero => intro attempt le st h; omega
  | succ r ih =>
    intro attempt le st _
    have hout := attemptInner_threw_config cfg value (env attempt) attempt hv hstr
      (hfill attempt)
    have hfst := runAttempt_fst cfg value (env attempt) attempt st
    rcases hra : FormFillUtil.runAttempt cfg value (env attempt) attempt st with ⟨out, st1⟩
    rw [hra] at hfst
    rw [hout] at hfst
    subst hfst
    simp only [FormFillUtil.fillGo, hra]
    cases r with
    | zero =>
      simp only [FormFillUtil.fillGo]
      rw [if_neg (by decide : ¬(FormFillUtil.configErrorMsg = ""))]
    | succ r' =>
      exact ih (attempt + 1) FormFillUtil.configErrorMsg _ (by omega)

theorem suspend_dt (track : Bool) (e : FormFillUtil.AttemptEnv) (ms : Nat)
    (t : FormFillUtil.Tr) :
    (FormFillUtil.suspend track e ms t).dt = t.dt + ms := rfl

theorem quiesce_dt_mono (cfg : FormFillUtil.Config) (e : FormFillUtil.AttemptEnv) :
    ∀ (fuel elapsed : Nat) (t : FormFillUtil.Tr),
      t.dt ≤ (FormFillUtil.quiesce cfg e fuel elapsed t).dt := by
  intro fuel
  induction fuel with
  | zero =>
    intro elapsed t
    rw [FormFillUtil.quiesce]
    split
    · exact Nat.le_refl _
    split
    · exact Nat.le_refl _
    · exact Nat.le_refl _
  | succ f ih =>
    intro elapsed t
    rw [FormFillUtil.quiesce]
    split
    · exact Nat.le_refl _
    split
    · exact Nat.le_refl _
    · exact Nat.le_trans (by simp [FormFillUtil.suspend]) (ih (elapsed + 50) _)

/-- With enough fuel for the deadline, a quiescence loop that ends with a
still-positive counter can only have ended by exceeding the timeout. -/
theorem quiesce_exit (cfg : FormFillUtil.Config) (e : FormFillUtil.AttemptEnv) :
    ∀ (fuel elapsed : Nat) (t : FormFillUtil.Tr),
      cfg.requestTimeout < elapsed + 50 * fuel →
      0 < (FormFillUtil.quiesce cfg e fuel elapsed t).counter →
      cfg.requestTimeout < elapsed + ((FormFillUtil.quiesce cfg e fuel elapsed t).dt - t.dt) := by
  intro fuel
  induction fuel with
  | zero =>
    intro elapsed t hinv hpos
    rw [FormFillUtil.quiesce] at hpos ⊢
    by_cases hc : t.counter ≤ 0
    · rw [if_pos hc] at hpos
      omega
    · rw [if_neg hc] at hpos ⊢
      by_cases hto : cfg.requestTimeout < elapsed
      · rw [if_pos hto] at hpos ⊢
        omega
      · rw [if_neg hto] at hpos ⊢
        omega
  | succ f ih =>
    intro elapsed t hinv hpos
    rw [FormFillUtil.quiesce] at hpos ⊢
    by_cases hc : t.counter ≤ 0
    · rw [if_pos hc] at hpos
      omega
    · rw [if_neg hc] at hpos ⊢
      by_cases hto : cfg.requestTimeout < elapsed
      · rw [if_pos hto] at hpos ⊢
        omega
      · rw [if_neg hto] at hpos ⊢
        show cfg.requestTimeout < elapsed
          + ((FormFillUtil.quiesce cfg e f (elapsed + 50)
              (FormFillUtil.suspend cfg.waitForRequests e 50 t)).dt - t.dt)
        have hmono := quiesce_dt_mono cfg e f (elapsed + 50)
          (FormFillUtil.suspend cfg.waitForRequests e 50 t)
        have hih := ih (elapsed + 50) (FormFillUtil.suspend cfg.waitForRequests e 50 t)
          (by omega) hpos
        rw [suspend_dt] at hmono hih
        omega

/-! ## Claim theorems for the retry-verify engine -/

/-- C1 counterexample: with `maxRetries = 1`, a boolean intended value and
no custom verify predicate, `fillWithRetry` does NOT raise the
configuration error to the caller immediately: a second attempt is started
(`attempts = 2`), the `retryDelay` sleep occurs (total sleep time 1500 ms =
two attempts of 300+200 ms plus the 500 ms retry delay), and the call
returns a failure result instead of raising — the error thrown inside
`verifyFill` is caught by the attempt's catch-all and retried like any
other failure. -/
theorem fillWithRetry_config_error_is_retried :
    (FormFillUtil.fillWithRetry optsOneRetry (.other "true") envQuiet (.ok "") {}).1
      = { success := false, attempts := 2, finalValue := .str "",
          error := some FormFillUtil.configErrorMsg }
    ∧ (FormFillUtil.fillWithRetry optsOneRetry (.other "true") envQuiet (.ok "") {}).2.time
      = 1500 := by
  decide

/-- C1 (amended): a non-string intended value without a custom verify
predicate raises the configuration error inside every attempt, where the
generic catch treats it like any other attempt failure and retries; after
exhausting all `maxRetries + 1` attempts, `fillWithRetry` returns — without
throwing — a failure result whose error is the configuration message. -/
theorem fillWithRetry_config_error_exhausts (o : FormFillUtil.FillOptions)
    (value : FormFillUtil.JsVal) (env : Nat → FormFillUtil.AttemptEnv)
    (x : Except String String) (st : FormFillUtil.DrvState)
    (hv : o.hasVerifyAction = false) (hstr : value.isStr = false)
    (hfill : ∀ k, (env k).fillRes = .ok ()) :
    (FormFillUtil.fillWithRetry o value env x st).1
      = { success := false, attempts := (FormFillUtil.resolveConfig o).maxRetries + 1,
          finalValue := .str (FormFillUtil.jsCatch x ""),
          error := some FormFillUtil.configErrorMsg } := by
  unfold FormFillUtil.fillWithRetry
  exact fillGo_config_error (FormFillUtil.resolveConfig o) value env x hv hstr hfill
    ((FormFillUtil.resolveConfig o).maxRetries + 1) 1 "" st (by omega)

/-- C1 witness for the amended claim: with the default options (3 retries)
a boolean value without a verifier exhausts 4 attempts and reports the
configuration error in the returned result. -/
theorem fillWithRetry_config_error_exhausts_witness :
    (FormFillUtil.fillWithRetry {} (.other "42") envQuiet (.ok "") {}).1
      = { success := false, attempts := 4, finalValue := .str "",
          error := some FormFillUtil.configErrorMsg } :=
  fillWithRetry_config_error_exhausts {} (.other "42") envQuiet (.ok "") {}
    rfl rfl (fun _ => rfl)

/-- C4: for every `maxRetries = m`, if the verification step evaluates to
false on every attempt (and the clear/fill driver calls do not throw, so
every attempt reaches it), `fillWithRetry` returns — it cannot throw, its
result type is total — a result with `success = false` and
`attempts = m + 1`. -/
theorem fillWithRetry_exhaustion (o : FormFillUtil.FillOptions)
    (value : FormFillUtil.JsVal) (env : Nat → FormFillUtil.AttemptEnv)
    (x : Except String String) (st : FormFillUtil.DrvState)
    (hco : ∀ k, (env k).clearRes = .ok () ∧ (env k).fillRes = .ok ())
    (hvf : ∀ k t, ∃ u,
      FormFillUtil.verifyFill (FormFillUtil.resolveConfig o) value (env k) t
        = .ok (false, u)) :
    (FormFillUtil.fillWithRetry o value env x st).1.success = false
    ∧ (FormFillUtil.fillWithRetry o value env x st).1.attempts
        = (FormFillUtil.resolveConfig o).maxRetries + 1 := by
  unfold FormFillUtil.fillWithRetry
  exact fillGo_exhausts (FormFillUtil.resolveConfig o) value env x hco hvf
    ((FormFillUtil.resolveConfig o).maxRetries + 1) 1 "" st

/-- C4 witness: `maxRetries = 2` with a default verification that always
reads a mismatching value yields `{success := false, attempts := 3}`. -/
theorem fillWithRetry_exhaustion_witness :
    (FormFillUtil.fillWithRetry optsTwoRetries (.str "a") envMismatch (.ok "") {}).1.success
      = false
    ∧ (FormFillUtil.fillWithRetry optsTwoRetries (.str "a") envMismatch (.ok "") {}).1.attempts
      = 3 :=
  fillWithRetry_exhaustion optsTwoRetries (.str "a") envMismatch (.ok "") {}
    (fun _ => ⟨rfl, rfl⟩) (fun _ _t => ⟨_, rfl⟩)

/-- C8: `fillMultiple` returns exactly one `FillResult` per input field, in
input order, each being the result the retry-verify engine produces for
that field under the spread-merged options — independent of the other
fields' outcomes and of the driver state the batch threads through
(sequentially, left to right), and without throwing (it is a total
function).  In particular a field that exhausts its retries contributes its
failure result and does not abort the batch. -/
theorem fillMultiple_one_result_per_field (fields : List FormFillUtil.Field)
    (g : FormFillUtil.FillOptions) (st : FormFillUtil.DrvState) :
    (FormFillUtil.fillMultiple fields g st).1.length = fields.length
    ∧ (FormFillUtil.fillMultiple fields g st).1
      = fields.map (fun f =>
          (FormFillUtil.fillWithRetry (FormFillUtil.mergeOptions g f.options)
            f.value f.env f.exhaustRead {}).1) := by
  induction fields generalizing st with
  | nil => exact ⟨rfl, rfl⟩
  | cons f rest ih =>
    rcases hfw : FormFillUtil.fillWithRetry (FormFillUtil.mergeOptions g f.options)
      f.value f.env f.exhaustRead st with ⟨r, st1⟩
    have hr : r = (FormFillUtil.fillWithRetry (FormFillUtil.mergeOptions g f.options)
        f.value f.env f.exhaustRead {}).1 := by
      rw [← fillWithRetry_fst_state (FormFillUtil.mergeOptions g f.options)
        f.value f.env f.exhaustRead st {}, hfw]
    rcases hfm : FormFillUtil.fillMultiple rest g st1 with ⟨rs, st2⟩
    have hih := ih st1
    rw [hfm] at hih
    have h1 : rs.length = rest.length := hih.1
    have h2 : rs = List.map (fun f =>
        (FormFillUtil.fillWithRetry (FormFillUtil.mergeOptions g f.options)
          f.value f.env f.exhaustRead {}).1) rest := hih.2
    simp only [FormFillUtil.fillMultiple, hfw, hfm]
    exact ⟨by simp [h1], by rw [List.map_cons, ← hr, ← h2]⟩

/-- C9: with request tracking enabled, the three counter listeners an
attempt registers are unregistered before the attempt ends on every exit
path — success, mismatch and thrown error alike (the `finally` of
`runAttempt`) — so the registry is exactly restored and no attempt (nor the
caller) ever observes a previous attempt's listeners; the whole
`fillWithRetry` invocation likewise leaves the registry as it found it. -/
theorem fillWithRetry_trackers_balanced (cfg : FormFillUtil.Config)
    (value : FormFillUtil.JsVal) (e : FormFillUtil.AttemptEnv) (attempt : Nat)
    (st : FormFillUtil.DrvState) (o : FormFillUtil.FillOptions)
    (env : Nat → FormFillUtil.AttemptEnv) (x : Except String String)
    (_htrack : cfg.waitForRequests = true) :
    ((FormFillUtil.runAttempt cfg value e attempt st).2.reqL = st.reqL
      ∧ (FormFillUtil.runAttempt cfg value e attempt st).2.finL = st.finL
      ∧ (FormFillUtil.runAttempt cfg value e attempt st).2.failL = st.failL)
    ∧ ((FormFillUtil.fillWithRetry o value env x st).2.reqL = st.reqL
      ∧ (FormFillUtil.fillWithRetry o value env x st).2.finL = st.finL
      ∧ (FormFillUtil.fillWithRetry o value env x st).2.failL = st.failL) :=
  ⟨runAttempt_listeners cfg value e attempt st,
    fillGo_listeners (FormFillUtil.resolveConfig o) value env x
      ((FormFillUtil.resolveConfig o).maxRetries + 1) 1 "" st⟩

/-- C9 witness: one defaulted (tracking-enabled) attempt and one full
invocation both restore a zeroed listener registry. -/
theorem fillWithRetry_trackers_balanced_witness :
    ((FormFillUtil.runAttempt cfgDefault (.str "x") {} 1 {}).2.reqL = ({} : FormFillUtil.DrvState).reqL
      ∧ (FormFillUtil.runAttempt cfgDefault (.str "x") {} 1 {}).2.finL = ({} : FormFillUtil.DrvState).finL
      ∧ (FormFillUtil.runAttempt cfgDefault (.str "x") {} 1 {}).2.failL = ({} : FormFillUtil.DrvState).failL)
    ∧ ((FormFillUtil.fillWithRetry {} (.str "x") envQuiet (.ok "") {}).2.reqL = ({} : FormFillUtil.DrvState).reqL
      ∧ (FormFillUtil.fillWithRetry {} (.str "x") envQuiet (.ok "") {}).2.finL = ({} : FormFillUtil.DrvState).finL
      ∧ (FormFillUtil.fillWithRetry {} (.str "x") envQuiet (.ok "") {}).2.failL = ({} : FormFillUtil.DrvState).failL) :=
  fillWithRetry_trackers_balanced cfgDefault (.str "x") {} 1 {} {} envQuiet (.ok "") rfl

/-- C10: the quiescence wait of an attempt (placed right after the
post-action sleep — see `attemptInner`) is entered only with tracking on
and a strictly positive counter; the polling loop returns immediately
whenever the counter is non-positive (any non-positive value counts as
quiescent); when it ends with a still-positive counter it can only have
done so by exceeding `requestTimeout`; and because the listeners decrement
on every `requestfinished`/`requestfailed` event — also for requests
started before registration — the counter can end negative, here `-1` after
a single 50 ms poll sleep, well before the 3000 ms timeout. -/
theorem quiescence_wait_spec :
    (∀ (cfg : FormFillUtil.Config) (e : FormFillUtil.AttemptEnv) (t : FormFillUtil.Tr),
      ¬(cfg.waitForRequests = true ∧ 0 < t.counter) →
      FormFillUtil.settleStage cfg e t = t)
    ∧ (∀ (cfg : FormFillUtil.Config) (e : FormFillUtil.AttemptEnv)
        (fuel elapsed : Nat) (t : FormFillUtil.Tr),
      t.counter ≤ 0 → FormFillUtil.quiesce cfg e fuel elapsed t = t)
    ∧ (∀ (cfg : FormFillUtil.Config) (e : FormFillUtil.AttemptEnv) (t : FormFillUtil.Tr),
      cfg.waitForRequests = true →
      0 < (FormFillUtil.settleStage cfg e t).counter →
      cfg.requestTimeout < (FormFillUtil.settleStage cfg e t).dt - t.dt)
    ∧ ((FormFillUtil.settleStage cfgDefault envPreFinished trOne).counter = -1
      ∧ (FormFillUtil.settleStage cfgDefault envPreFinished trOne).dt - trOne.dt = 50) := by
  refine ⟨fun cfg e t h => ?_, fun cfg e fuel elapsed t h => ?_,
    fun cfg e t htr h => ?_, by decide⟩
  · unfold FormFillUtil.settleStage
    rw [if_neg h]
  · cases fuel with
    | zero => rw [FormFillUtil.quiesce, if_pos h]
    | succ f => rw [FormFillUtil.quiesce, if_pos h]
  · unfold FormFillUtil.settleStage at h ⊢
    by_cases hg : cfg.waitForRequests = true ∧ 0 < t.counter
    · rw [if_pos hg] at h ⊢
      have := quiesce_exit cfg e (cfg.requestTimeout + 1) 0 t (by omega) h
      omega
    · rw [if_neg hg] at h
      exact absurd ⟨htr, h⟩ hg
